import Mathlib

/- Verification development for the whole-slide-image patch sampler
   (slide_sampler.py).  Python floats are modelled as exact rationals,
   Python ints as natural numbers, and the random origins consumed by the
   rejection-sampling loops as an explicit finite stream of candidate
   draws, so each unbounded while-loop becomes a function returning
   Option (none models a run in which the loop never accepts).  The two
   multi-resolution image handles (the slide and the mask used for
   annotations) are opaque external collaborators: each is modelled by
   its ordered list of per-level downsampling factors together with its
   region-read operation, given as a function from an origin to the
   pixel block the read returns. -/

/-- Exceptions raised by the sampler code, one constructor per distinct
raise site or builtin Python error relevant to the claims. -/
inductive Err where
  | levelNotFound
  | valueError
  | inconsistentGeometry
  | maskTypeError
  | nameErrorMask
  deriving DecidableEq

/-- An RGB pixel, as produced by convert to RGB on a region read. -/
abbrev RGB : Type := ℚ × ℚ × ℚ

/-- A multi-resolution image handle (an OpenSlide object): the ordered
list of per-level downsampling factors, plus region reads converted to
RGB or to 8-bit grayscale.  A read is indexed by the level-0 origin
(w, h); level and size are fixed per call site in the source, so they
are baked into the read function of the handle. -/
structure MultiResImage where
  level_downsamples : List ℚ
  read_region_RGB : ℕ → ℕ → List (List RGB)
  read_region_L : ℕ → ℕ → List (List ℚ)

/-- Python min over a list, which raises ValueError (here: none) on an
empty sequence and otherwise folds the binary minimum. -/
def pymin : List ℚ → Option ℚ
  | [] => none
  | x :: xs => some (xs.foldl min x)

theorem foldl_min_le_init (xs : List ℚ) (a : ℚ) : xs.foldl min a ≤ a := by
  induction xs generalizing a with
  | nil => simp
  | cons y ys ih => exact le_trans (ih (min a y)) (min_le_left a y)

theorem foldl_min_le_mem (xs : List ℚ) (a y : ℚ) (hy : y ∈ xs) : xs.foldl min a ≤ y := by
  induction xs generalizing a with
  | nil => cases hy
  | cons z zs ih =>
    rcases List.mem_cons.mp hy with h | h
    · subst h
      exact le_trans (foldl_min_le_init zs (min a y)) (min_le_right a y)
    · exact ih (min a z) h

theorem foldl_min_mem (xs : List ℚ) (a : ℚ) : xs.foldl min a = a ∨ xs.foldl min a ∈ xs := by
  induction xs generalizing a with
  | nil => exact Or.inl rfl
  | cons y ys ih =>
    simp only [List.foldl_cons]
    rcases ih (min a y) with h | h
    · rcases min_choice a y with hm | hm
      · exact Or.inl (h.trans hm)
      · exact Or.inr (by rw [h, hm]; exact List.mem_cons_self y ys)
    · exact Or.inr (List.mem_cons_of_mem y h)

theorem pymin_mem {l : List ℚ} {m : ℚ} (h : pymin l = some m) : m ∈ l := by
  match l with
  | [] => simp [pymin] at h
  | x :: xs =>
    simp only [pymin, Option.some.injEq] at h
    rcases foldl_min_mem xs x with h2 | h2
    · rw [← h, h2]; exact List.mem_cons_self x xs
    · rw [← h]; exact List.mem_cons_of_mem x h2

theorem pymin_le {l : List ℚ} {m : ℚ} (h : pymin l = some m) : ∀ y ∈ l, m ≤ y := by
  match l with
  | [] => simp [pymin] at h
  | x :: xs =>
    simp only [pymin, Option.some.injEq] at h
    intro y hy
    rcases List.mem_cons.mp hy with h2 | h2
    · rw [← h, h2]; exact foldl_min_le_init xs x
    · rw [← h]; exact foldl_min_le_mem xs x y h2

theorem pymin_isSome {l : List ℚ} (h : l ≠ []) : ∃ m, pymin l = some m := by
  match l with
  | [] => exact absurd rfl h
  | x :: xs => exact ⟨xs.foldl min x, rfl⟩

/-- Absolute differences between the desired downsampling and each
available factor: the list diffs built in get_level_and_downsampling. -/
def level_diffs (F : List ℚ) (desired_downsampling : ℚ) : List ℚ :=
  F.map fun f => |desired_downsampling - f|

namespace Slide_Sampler

/-- Slide_Sampler.get_level_and_downsampling: find the level whose
downsampling factor is nearest the desired one; raise LevelNotFound if
even the nearest factor is further than the threshold away.  Python min
on the empty diffs list would raise ValueError. -/
def get_level_and_downsampling (img : MultiResImage)
    (desired_downsampling threshold : ℚ) : Except Err (ℕ × ℚ) :=
  let diffs := level_diffs img.level_downsamples desired_downsampling
  match pymin diffs with
  | none => .error .valueError
  | some minimum =>
    if minimum > threshold then .error .levelNotFound
    else .ok (diffs.indexOf minimum, img.level_downsamples.getD (diffs.indexOf minimum) 0)

end Slide_Sampler

theorem getD_mem (dflt : ℚ) {l : List ℚ} {j : ℕ} (hj : j < l.length) : l.getD j dflt ∈ l := by
  rw [List.getD_eq_getElem?_getD, List.getElem?_eq_getElem hj]
  exact List.getElem_mem hj

theorem getD_indexOf {l : List ℚ} {m : ℚ} (h : m ∈ l) : l.getD (l.indexOf m) 0 = m := by
  have hlt : l.indexOf m < l.length := List.indexOf_lt_length.mpr h
  rw [List.getD_eq_getElem?_getD, List.getElem?_eq_getElem hlt]
  simp only [Option.getD_some]
  exact List.getElem_indexOf hlt

theorem level_diffs_length (F : List ℚ) (d : ℚ) : (level_diffs F d).length = F.length := by
  simp [level_diffs]

theorem level_diffs_getD (F : List ℚ) (d : ℚ) (j : ℕ) (hj : j < F.length) :
    (level_diffs F d).getD j 0 = |d - F.getD j 0| := by
  simp [level_diffs, List.getD_eq_getElem?_getD, List.getElem?_map,
    List.getElem?_eq_getElem hj]

/-- C1: the level resolver returns an index minimizing the absolute
difference between the desired and available downsampling factors,
together with the exact factor at that index, and returns the
LevelNotFound error exactly when every available factor is further than
the threshold from the desired value (that is, when the minimal
absolute difference exceeds the threshold). -/
theorem get_level_and_downsampling_spec (img : MultiResImage) (d t : ℚ)
    (hne : img.level_downsamples ≠ []) :
    (∀ i ds, Slide_Sampler.get_level_and_downsampling img d t = .ok (i, ds) →
        i < img.level_downsamples.length ∧
        ds = img.level_downsamples.getD i 0 ∧
        ∀ j, j < img.level_downsamples.length →
          |d - ds| ≤ |d - img.level_downsamples.getD j 0|) ∧
    (Slide_Sampler.get_level_and_downsampling img d t = .error .levelNotFound ↔
        ∀ j, j < img.level_downsamples.length →
          t < |d - img.level_downsamples.getD j 0|) := by
  set F := img.level_downsamples with hF
  have hdne : level_diffs F d ≠ [] := by
    intro h
    exact hne (List.map_eq_nil_iff.mp h)
  obtain ⟨m, hm⟩ := pymin_isSome hdne
  have hmem : m ∈ level_diffs F d := pymin_mem hm
  have hmle : ∀ y ∈ level_diffs F d, m ≤ y := pymin_le hm
  have hmle_at : ∀ j, j < F.length → m ≤ |d - F.getD j 0| := by
    intro j hj
    have := hmle _ (getD_mem 0 (l := level_diffs F d) (j := j)
      (by rw [level_diffs_length]; exact hj))
    rwa [level_diffs_getD F d j hj] at this
  by_cases hgt : m > t
  · have hres : Slide_Sampler.get_level_and_downsampling img d t = .error .levelNotFound := by
      simp only [Slide_Sampler.get_level_and_downsampling, ← hF, hm, hgt, if_true]
    constructor
    · intro i ds h
      rw [hres] at h
      exact absurd h (by simp)
    · rw [hres]
      simp only [true_iff]
      intro j hj
      exact lt_of_lt_of_le hgt (hmle_at j hj)
  · have hidx : (level_diffs F d).indexOf m < F.length := by
      rw [← level_diffs_length F d]
      exact List.indexOf_lt_length.mpr hmem
    have hval : (level_diffs F d).getD ((level_diffs F d).indexOf m) 0 = m :=
      getD_indexOf hmem
    have habs : |d - F.getD ((level_diffs F d).indexOf m) 0| = m := by
      rw [← level_diffs_getD F d _ hidx]
      exact hval
    have hres : Slide_Sampler.get_level_and_downsampling img d t =
        .ok ((level_diffs F d).indexOf m, F.getD ((level_diffs F d).indexOf m) 0) := by
      simp only [Slide_Sampler.get_level_and_downsampling, ← hF, hm, hgt, if_false]
    constructor
    · intro i ds h
      rw [hres] at h
      have hi : i = (level_diffs F d).indexOf m := by
        injection h with h2
        exact (congrArg Prod.fst h2).symm
      have hds : ds = F.getD ((level_diffs F d).indexOf m) 0 := by
        injection h with h2
        exact (congrArg Prod.snd h2).symm
      subst hi
      refine ⟨hidx, hds, ?_⟩
      intro j hj
      rw [hds, habs]
      exact hmle_at j hj
    · rw [hres]
      constructor
      · intro h
        exact absurd h (by simp)
      · intro h
        have := h _ hidx
        rw [habs] at this
        exact absurd this (not_lt.mpr (not_lt.mp hgt))

/-- Witness for C1: the spec example, with factors [1, 4, 16, 32],
desired 32.05 and tolerance 0.1, resolves to index 3 with factor 32. -/
theorem get_level_and_downsampling_spec_witness :
    (([1, 4, 16, 32] : List ℚ) ≠ []) ∧
    (∀ i ds, Slide_Sampler.get_level_and_downsampling
        ⟨[1, 4, 16, 32], fun _ _ => [], fun _ _ => []⟩ (641/20) (1/10) = .ok (i, ds) →
        i < ([1, 4, 16, 32] : List ℚ).length ∧
        ds = ([1, 4, 16, 32] : List ℚ).getD i 0 ∧
        ∀ j, j < ([1, 4, 16, 32] : List ℚ).length →
          |641/20 - ds| ≤ |641/20 - ([1, 4, 16, 32] : List ℚ).getD j 0|) ∧
    (Slide_Sampler.get_level_and_downsampling
        ⟨[1, 4, 16, 32], fun _ _ => [], fun _ _ => []⟩ (641/20) (1/10) = .error .levelNotFound ↔
        ∀ j, j < ([1, 4, 16, 32] : List ℚ).length →
          (1/10 : ℚ) < |641/20 - ([1, 4, 16, 32] : List ℚ).getD j 0|) := by
  have h := get_level_and_downsampling_spec
    ⟨[1, 4, 16, 32], fun _ _ => [], fun _ _ => []⟩ (641/20) (1/10) (by decide)
  exact ⟨by decide, h.1, h.2⟩

/-- Patch record: the info dict returned with every sampled patch.  The
cls field models the class entry of the dict, absent (none) until the
classed sampler sets it to 0 or 1. -/
structure Record where
  w : ℕ
  h : ℕ
  parent : String
  level : ℕ
  size : ℕ
  cls : Option ℕ
  deriving DecidableEq

/-- A patch pixel block, as returned by read_region converted to RGB. -/
abbrev Patch : Type := List (List RGB)

/-- Session state of a Slide_Sampler object: the attributes assigned by
init, by generate_background_mask or pickle_load_background_mask, and
by add_annotation_mask.  The background mask is a rational matrix where
1 denotes tissue. -/
structure State where
  wsi_file : String
  desired_downsampling : ℚ
  size : ℕ
  wsi : MultiResImage
  level : ℕ
  downsampling : ℚ
  width_available : ℕ
  height_available : ℕ
  background_mask : List (List ℚ)
  background_mask_level : ℕ
  background_mask_downsampling : ℚ
  size_at_background_level : ℕ
  annotation_mask_file : String
  annotation_mask : MultiResImage
  annotation_mask_level : ℕ
  annotation_mask_downsampling : ℚ

namespace Slide_Sampler

/-- Slide_Sampler.level_converter with round=0: convert a coordinate or
length x from lvl_in to lvl_out via
x * downsample(lvl_in) / downsample(lvl_out), reading the factors from
the level_downsamples list of the wsi. -/
def level_converter (s : State) (x : ℚ) (lvl_in lvl_out : ℕ) : ℚ :=
  x * s.wsi.level_downsamples.getD lvl_in 1 / s.wsi.level_downsamples.getD lvl_out 1

/-- Slide_Sampler.level_converter with round=1 (the default): the floor
of the converted coordinate, cast with astype to the unsigned 32-bit
integer type, which reduces the floor modulo 2 to the 32.  The
representative of the residue class in [0, 2 to the 32) is taken with
Int.emod, matching the wrap of the cast; for a floor already in that
range (every in-bounds call site) the cast is value-preserving. -/
def level_converter_round (s : State) (x : ℚ) (lvl_in lvl_out : ℕ) : ℕ :=
  (Int.floor (level_converter s x lvl_in lvl_out) % 2 ^ 32).toNat

end Slide_Sampler

/-- C8 (amended): level_converter computes x * downsample(lvl_in) /
downsample(lvl_out); real-valued mode returns the exact quotient, and
integral mode returns the floor of that value reduced modulo 2 to the
32 by the uint32 cast, always a non-negative integer; whenever the
floor is below 2 to the 32 (every in-bounds call site) the cast is
value-preserving, so the integral result is the floor itself, usable
as an array or region index. -/
theorem level_converter_spec (s : State) (x : ℚ) (a b : ℕ)
    (hx : 0 ≤ x)
    (hpos : ∀ f ∈ s.wsi.level_downsamples, 0 < f)
    (ha : a < s.wsi.level_downsamples.length)
    (hb : b < s.wsi.level_downsamples.length) :
    Slide_Sampler.level_converter s x a b =
      x * s.wsi.level_downsamples.getD a 1 / s.wsi.level_downsamples.getD b 1 ∧
    (Slide_Sampler.level_converter_round s x a b : ℤ) =
      Int.floor (x * s.wsi.level_downsamples.getD a 1 /
        s.wsi.level_downsamples.getD b 1) % 2 ^ 32 ∧
    0 ≤ Int.floor (x * s.wsi.level_downsamples.getD a 1 /
      s.wsi.level_downsamples.getD b 1) ∧
    (Int.floor (x * s.wsi.level_downsamples.getD a 1 /
        s.wsi.level_downsamples.getD b 1) < 2 ^ 32 →
      (Slide_Sampler.level_converter_round s x a b : ℤ) =
        Int.floor (x * s.wsi.level_downsamples.getD a 1 /
          s.wsi.level_downsamples.getD b 1)) := by
  have hfa : 0 < s.wsi.level_downsamples.getD a 1 := hpos _ (getD_mem 1 ha)
  have hfb : 0 < s.wsi.level_downsamples.getD b 1 := hpos _ (getD_mem 1 hb)
  have hq : 0 ≤ x * s.wsi.level_downsamples.getD a 1 / s.wsi.level_downsamples.getD b 1 := by
    positivity
  have hfl : 0 ≤ Int.floor
      (x * s.wsi.level_downsamples.getD a 1 / s.wsi.level_downsamples.getD b 1) :=
    Int.floor_nonneg.mpr hq
  have hmodeq : (Slide_Sampler.level_converter_round s x a b : ℤ) =
      Int.floor (x * s.wsi.level_downsamples.getD a 1 /
        s.wsi.level_downsamples.getD b 1) % 2 ^ 32 := by
    simp only [Slide_Sampler.level_converter_round, Slide_Sampler.level_converter]
    exact Int.toNat_of_nonneg (Int.emod_nonneg _ (by norm_num))
  refine ⟨rfl, hmodeq, hfl, fun hlt => ?_⟩
  rw [hmodeq]
  exact Int.emod_eq_of_lt hfl hlt

/-- A small concrete annotation image used by witnesses. -/
def sampleAnnImage : MultiResImage where
  level_downsamples := [1]
  read_region_RGB := fun _ _ => [[(0, 0, 0)]]
  read_region_L := fun _ _ => [[0]]

/-- A small concrete slide used by witnesses: two levels with factors
1 and 2. -/
def sampleImage : MultiResImage where
  level_downsamples := [1, 2]
  read_region_RGB := fun _ _ => [[(1, 0, 0)]]
  read_region_L := fun _ _ => [[0]]

/-- A small concrete session used by witnesses: patch size 1, sampling
at level 0, a one-pixel background mask of pure tissue at level 0. -/
def sampleState : State where
  wsi_file := "slide"
  desired_downsampling := 1
  size := 1
  wsi := sampleImage
  level := 0
  downsampling := 1
  width_available := 1
  height_available := 1
  background_mask := [[1]]
  background_mask_level := 0
  background_mask_downsampling := 1
  size_at_background_level := 1
  annotation_mask_file := "ann"
  annotation_mask := sampleAnnImage
  annotation_mask_level := 0
  annotation_mask_downsampling := 1

/-- C8 as stated is false: the uint32 cast of the integral mode wraps
modulo 2 to the 32.  With the single factor 1, the converted value of
x = 2 to the 32 has floor 2 to the 32, but the integral mode returns
0, so the integral result is not the floor of the converted value. -/
theorem level_converter_spec_cex :
    Slide_Sampler.level_converter_round { sampleState with
        wsi := ⟨[1], fun _ _ => [], fun _ _ => []⟩ } (2 ^ 32 : ℚ) 0 0 = 0 ∧
    Int.floor (Slide_Sampler.level_converter { sampleState with
        wsi := ⟨[1], fun _ _ => [], fun _ _ => []⟩ } (2 ^ 32 : ℚ) 0 0) = 2 ^ 32 ∧
    ¬ ((Slide_Sampler.level_converter_round { sampleState with
          wsi := ⟨[1], fun _ _ => [], fun _ _ => []⟩ } (2 ^ 32 : ℚ) 0 0 : ℤ) =
        Int.floor (Slide_Sampler.level_converter { sampleState with
          wsi := ⟨[1], fun _ _ => [], fun _ _ => []⟩ } (2 ^ 32 : ℚ) 0 0)) := by
  have hfl : Int.floor (Slide_Sampler.level_converter { sampleState with
      wsi := ⟨[1], fun _ _ => [], fun _ _ => []⟩ } (2 ^ 32 : ℚ) 0 0) = 2 ^ 32 := by
    simp only [Slide_Sampler.level_converter]
    norm_num
  have hrd : Slide_Sampler.level_converter_round { sampleState with
      wsi := ⟨[1], fun _ _ => [], fun _ _ => []⟩ } (2 ^ 32 : ℚ) 0 0 = 0 := by
    simp only [Slide_Sampler.level_converter_round, hfl]
    norm_num
  refine ⟨hrd, hfl, ?_⟩
  rw [hrd, hfl]
  norm_num

/-- Witness for the amended C8 at the sample session: converting x = 3
from level 0 to level 1 (factors 1 and 2), where the floor 1 is below
2 to the 32. -/
theorem level_converter_spec_witness :
    ((0 : ℚ) ≤ 3 ∧ (∀ f ∈ sampleState.wsi.level_downsamples, 0 < f) ∧
      0 < sampleState.wsi.level_downsamples.length ∧
      1 < sampleState.wsi.level_downsamples.length) ∧
    (Slide_Sampler.level_converter sampleState 3 0 1 =
      3 * sampleState.wsi.level_downsamples.getD 0 1 /
        sampleState.wsi.level_downsamples.getD 1 1 ∧
    (Slide_Sampler.level_converter_round sampleState 3 0 1 : ℤ) =
      Int.floor (3 * sampleState.wsi.level_downsamples.getD 0 1 /
        sampleState.wsi.level_downsamples.getD 1 1) % 2 ^ 32 ∧
    0 ≤ Int.floor (3 * sampleState.wsi.level_downsamples.getD 0 1 /
        sampleState.wsi.level_downsamples.getD 1 1) ∧
    (Int.floor (3 * sampleState.wsi.level_downsamples.getD 0 1 /
        sampleState.wsi.level_downsamples.getD 1 1) < 2 ^ 32 →
      (Slide_Sampler.level_converter_round sampleState 3 0 1 : ℤ) =
        Int.floor (3 * sampleState.wsi.level_downsamples.getD 0 1 /
          sampleState.wsi.level_downsamples.getD 1 1))) :=
  ⟨⟨by norm_num, by decide, by decide, by decide⟩,
    level_converter_spec sampleState 3 0 1 (by norm_num) (by decide) (by decide) (by decide)⟩

/-- C5 as stated is false: with factors [1, 32], converting x = 31 from
level 0 to level 1 in integral mode gives floor(31/32) = 0, and back
gives 0, which differs from 31 by more than one unit. -/
theorem level_converter_round_trip_cex :
    ¬ |((31 : ℕ) : ℚ) -
        (Slide_Sampler.level_converter_round { sampleState with
            wsi := ⟨[1, 32], fun _ _ => [], fun _ _ => []⟩ }
          (Slide_Sampler.level_converter_round { sampleState with
              wsi := ⟨[1, 32], fun _ _ => [], fun _ _ => []⟩ } ((31 : ℕ) : ℚ) 0 1 : ℕ) 1 0 : ℕ)| ≤ 1 := by
  have h1 : Slide_Sampler.level_converter_round { sampleState with
      wsi := ⟨[1, 32], fun _ _ => [], fun _ _ => []⟩ } ((31 : ℕ) : ℚ) 0 1 = 0 := by
    simp only [Slide_Sampler.level_converter_round, Slide_Sampler.level_converter]
    norm_num
  rw [h1]
  have h2 : Slide_Sampler.level_converter_round { sampleState with
      wsi := ⟨[1, 32], fun _ _ => [], fun _ _ => []⟩ } ((0 : ℕ) : ℚ) 1 0 = 0 := by
    simp only [Slide_Sampler.level_converter_round, Slide_Sampler.level_converter]
    norm_num
  rw [h2]
  norm_num

/-- C5 (amended): the integral round trip from level a to level b and
back is within one unit of the non-negative integer coordinate x
whenever the downsampling factor of level a is at least that of level
b (converting toward an equal or finer level first) and the converted
value x times factor(a) over factor(b) is below 2 to the 32, so that
the uint32 cast of the integral mode does not wrap.  Converting first
to a strictly coarser level can lose arbitrarily more than one unit,
as the counterexample with factors [1, 32] shows; and without the
overflow bound the wrap of the cast can lose the coordinate entirely
(compare the counterexample at 2 to the 32 for the integral mode). -/
theorem level_converter_round_trip (s : State) (x : ℕ) (a b : ℕ)
    (hpos : ∀ f ∈ s.wsi.level_downsamples, 0 < f)
    (ha : a < s.wsi.level_downsamples.length)
    (hb : b < s.wsi.level_downsamples.length)
    (hba : s.wsi.level_downsamples.getD b 1 ≤ s.wsi.level_downsamples.getD a 1)
    (hov : (x : ℚ) * s.wsi.level_downsamples.getD a 1 /
      s.wsi.level_downsamples.getD b 1 < 2 ^ 32) :
    |(x : ℚ) - (Slide_Sampler.level_converter_round s
        (Slide_Sampler.level_converter_round s (x : ℚ) a b : ℕ) b a : ℕ)| ≤ 1 := by
  have hfa : 0 < s.wsi.level_downsamples.getD a 1 := hpos _ (getD_mem 1 ha)
  have hfb : 0 < s.wsi.level_downsamples.getD b 1 := hpos _ (getD_mem 1 hb)
  set fa := s.wsi.level_downsamples.getD a 1 with hfadef
  set fb := s.wsi.level_downsamples.getD b 1 with hfbdef
  simp only [Slide_Sampler.level_converter_round, Slide_Sampler.level_converter, ← hfadef,
    ← hfbdef]
  set q : ℚ := (x : ℚ) * fa / fb with hqdef
  have hq0 : 0 ≤ q := by positivity
  have hY0 : 0 ≤ Int.floor q := Int.floor_nonneg.mpr hq0
  have hYlt : Int.floor q < 2 ^ 32 := by
    apply Int.floor_lt.mpr
    push_cast
    exact hov
  have hYmod : Int.floor q % 2 ^ 32 = Int.floor q := Int.emod_eq_of_lt hY0 hYlt
  have hYcast : (((Int.floor q % 2 ^ 32).toNat : ℕ) : ℚ) = ((Int.floor q : ℤ) : ℚ) := by
    rw [hYmod]
    exact_mod_cast congrArg (fun z : ℤ => (z : ℚ)) (Int.toNat_of_nonneg hY0)
  rw [hYcast]
  set Y : ℤ := Int.floor q with hYdef
  have hYle : (Y : ℚ) ≤ q := Int.floor_le q
  set q2 : ℚ := ((Y : ℚ)) * fb / fa with hq2def
  have hq20 : 0 ≤ q2 := by
    have : (0 : ℚ) ≤ (Y : ℚ) := by exact_mod_cast hY0
    positivity
  have hupq : q2 ≤ q := by
    have h1 : q2 ≤ (Y : ℚ) := by
      rw [hq2def, div_le_iff₀ hfa]
      exact mul_le_mul_of_nonneg_left hba (by exact_mod_cast hY0)
    exact le_trans h1 hYle
  have hZ0 : 0 ≤ Int.floor q2 := Int.floor_nonneg.mpr hq20
  have hZlt : Int.floor q2 < 2 ^ 32 := by
    apply Int.floor_lt.mpr
    push_cast
    exact lt_of_le_of_lt hupq hov
  have hZmod : Int.floor q2 % 2 ^ 32 = Int.floor q2 := Int.emod_eq_of_lt hZ0 hZlt
  have hZcast : (((Int.floor q2 % 2 ^ 32).toNat : ℕ) : ℚ) = ((Int.floor q2 : ℤ) : ℚ) := by
    rw [hZmod]
    exact_mod_cast congrArg (fun z : ℤ => (z : ℚ)) (Int.toNat_of_nonneg hZ0)
  rw [hZcast]
  set Z : ℤ := Int.floor q2 with hZdef
  have hup : q2 ≤ (x : ℚ) := by
    rw [hq2def, div_le_iff₀ hfa]
    calc (Y : ℚ) * fb ≤ q * fb := mul_le_mul_of_nonneg_right hYle hfb.le
    _ = (x : ℚ) * fa := by rw [hqdef]; field_simp
  have hZx : Z ≤ (x : ℤ) := by
    rw [hZdef]
    calc Int.floor q2 ≤ Int.floor ((x : ℚ)) := Int.floor_le_floor hup
    _ = (x : ℤ) := by exact_mod_cast Int.floor_natCast x
  have hYgt : q - 1 < (Y : ℚ) := Int.sub_one_lt_floor q
  have hlow : (x : ℚ) - 1 ≤ q2 := by
    have hstep : (q - 1) * fb / fa ≤ q2 := by
      rw [hq2def]
      gcongr
    have heq : (q - 1) * fb / fa = (x : ℚ) - fb / fa := by
      rw [hqdef]
      field_simp
    have hfrac : fb / fa ≤ 1 := (div_le_one hfa).mpr hba
    calc (x : ℚ) - 1 ≤ (x : ℚ) - fb / fa := by linarith
    _ = (q - 1) * fb / fa := heq.symm
    _ ≤ q2 := hstep
  have hZlow : (x : ℤ) - 1 ≤ Z := by
    rw [hZdef]
    apply Int.le_floor.mpr
    push_cast
    linarith
  rw [abs_le]
  constructor
  · have : ((Z : ℚ)) ≤ ((x : ℤ) : ℚ) := by exact_mod_cast hZx
    push_cast at this ⊢
    linarith
  · have : (((x : ℤ) : ℚ)) - 1 ≤ (Z : ℚ) := by exact_mod_cast hZlow
    push_cast at this ⊢
    linarith

/-- Witness for the amended C5: round trip of x = 5 from level 1 to
level 0 and back in the sample session (factors 1 and 2, so the factor
of the source level is the larger one and the converted value 10 is
far below 2 to the 32). -/
theorem level_converter_round_trip_witness :
    ((∀ f ∈ sampleState.wsi.level_downsamples, 0 < f) ∧
      1 < sampleState.wsi.level_downsamples.length ∧
      0 < sampleState.wsi.level_downsamples.length ∧
      sampleState.wsi.level_downsamples.getD 0 1 ≤
        sampleState.wsi.level_downsamples.getD 1 1 ∧
      ((5 : ℕ) : ℚ) * sampleState.wsi.level_downsamples.getD 1 1 /
        sampleState.wsi.level_downsamples.getD 0 1 < 2 ^ 32) ∧
    |((5 : ℕ) : ℚ) - (Slide_Sampler.level_converter_round sampleState
        (Slide_Sampler.level_converter_round sampleState ((5 : ℕ) : ℚ) 1 0 : ℕ) 0 1 : ℕ)| ≤ 1 :=
  ⟨⟨by decide, by decide, by decide, by decide, by norm_num [sampleState, sampleImage]⟩,
    level_converter_round_trip sampleState 5 1 0 (by decide) (by decide) (by decide) (by decide)
      (by norm_num [sampleState, sampleImage])⟩

namespace Slide_Sampler

/-- Slide_Sampler.generate_background_mask (the method): resolves the
background level and stores it, then evaluates the unbound name mask
on the right-hand side of the assignment to self.background_mask and
therefore raises a NameError before that field is assigned; every
later statement of the body is unreachable.  Python attribute mutation
performed before a raise survives it, so the post-state is returned
beside the raised error. -/
def generate_background_mask (s : State) (desired_downsampling threshold : ℚ) :
    State × Option Err :=
  match get_level_and_downsampling s.wsi desired_downsampling threshold with
  | .error e => (s, some e)
  | .ok (lvl, ds) =>
    ({ s with background_mask_level := lvl, background_mask_downsampling := ds },
      some .nameErrorMask)

/-- Slide_Sampler.add_annotation_mask: store the mask file name and
handle, resolve the level of the mask for the desired downsampling
with threshold 0.1, and raise the InconsistentGeometry error when the
resolved downsampling of the mask differs from the resolved
downsampling of the slide by more than eps = 1e-3.  As above, the
post-state is returned beside the error. -/
def add_annotation_mask (s : State) (file : String) (img : MultiResImage) :
    State × Option Err :=
  let s1 := { s with annotation_mask_file := file, annotation_mask := img }
  match get_level_and_downsampling img s.desired_downsampling (1/10) with
  | .error e => (s1, some e)
  | .ok (lvl, ds) =>
    let s2 := { s1 with annotation_mask_level := lvl, annotation_mask_downsampling := ds }
    if |ds - s.downsampling| > 1/1000 then (s2, some .inconsistentGeometry)
    else (s2, none)

end Slide_Sampler

/-- C4 as stated is false: on a session whose slide has the single
factor 1, the method with the default arguments (desired 32, threshold
0.1) fails with LevelNotFound from the level resolver, not with the
unbound-name error. -/
theorem generate_background_mask_method_cex :
    (Slide_Sampler.generate_background_mask { sampleState with
        wsi := ⟨[1], fun _ _ => [], fun _ _ => []⟩ } 32 (1/10)).2 ≠ some Err.nameErrorMask := by
  simp only [Slide_Sampler.generate_background_mask, Slide_Sampler.get_level_and_downsampling,
    level_diffs, List.map, pymin, List.foldl]
  norm_num
  decide

/-- C4 (amended): whenever the level resolution step succeeds, the
method fails with the unbound-name NameError; it has already set
background_mask_level and background_mask_downsampling, it leaves
background_mask (and every other field) untouched, and its outcome is
independent of the pixel data of the slide, so the module-level Otsu
and morphology pipeline is never invoked. -/
theorem generate_background_mask_method_spec (s : State) (d t : ℚ) (lvl : ℕ) (ds : ℚ)
    (h : Slide_Sampler.get_level_and_downsampling s.wsi d t = .ok (lvl, ds)) :
    Slide_Sampler.generate_background_mask s d t =
      ({ s with background_mask_level := lvl, background_mask_downsampling := ds },
        some Err.nameErrorMask) ∧
    (Slide_Sampler.generate_background_mask s d t).1.background_mask = s.background_mask ∧
    ∀ rgbRead lRead,
      Slide_Sampler.generate_background_mask
          { s with wsi := { s.wsi with read_region_RGB := rgbRead, read_region_L := lRead } }
          d t =
        ({ s with
            wsi := { s.wsi with read_region_RGB := rgbRead, read_region_L := lRead },
            background_mask_level := lvl, background_mask_downsampling := ds },
          some Err.nameErrorMask) := by
  have hbody : Slide_Sampler.generate_background_mask s d t =
      ({ s with background_mask_level := lvl, background_mask_downsampling := ds },
        some Err.nameErrorMask) := by
    simp only [Slide_Sampler.generate_background_mask, h]
  refine ⟨hbody, by rw [hbody], ?_⟩
  intro rgbRead lRead
  have hsame : Slide_Sampler.get_level_and_downsampling
      { s.wsi with read_region_RGB := rgbRead, read_region_L := lRead } d t = .ok (lvl, ds) := by
    simpa only [Slide_Sampler.get_level_and_downsampling] using h
  simp only [Slide_Sampler.generate_background_mask, hsame]

/-- Witness for the amended C4: the sample session resolves desired
downsampling 1 at threshold 0.1 to level 0 with factor 1, so the
method raises the unbound-name error there. -/
theorem generate_background_mask_method_spec_witness :
    (Slide_Sampler.get_level_and_downsampling sampleState.wsi 1 (1/10) = .ok (0, 1)) ∧
    (Slide_Sampler.generate_background_mask sampleState 1 (1/10) =
      ({ sampleState with background_mask_level := 0, background_mask_downsampling := 1 },
        some Err.nameErrorMask) ∧
    (Slide_Sampler.generate_background_mask sampleState 1 (1/10)).1.background_mask =
      sampleState.background_mask ∧
    ∀ rgbRead lRead,
      Slide_Sampler.generate_background_mask
          { sampleState with
            wsi := { sampleState.wsi with
              read_region_RGB := rgbRead,
              read_region_L := lRead } } 1 (1/10) =
        ({ sampleState with
            wsi := { sampleState.wsi with
              read_region_RGB := rgbRead,
              read_region_L := lRead },
            background_mask_level := 0, background_mask_downsampling := 1 },
          some Err.nameErrorMask)) := by
  have h : Slide_Sampler.get_level_and_downsampling sampleState.wsi 1 (1/10) = .ok (0, 1) := by
    simp only [Slide_Sampler.get_level_and_downsampling, sampleState, sampleImage, level_diffs,
      List.map, pymin, List.foldl]
    norm_num
  exact ⟨h, generate_background_mask_method_spec sampleState 1 (1/10) 0 1 h⟩

/-- C7: attaching an annotation mask whose resolved downsampling
differs from the resolved downsampling of the slide by more than
eps = 1e-3 raises the InconsistentGeometry error, and the sampling
state of the session (resolved level and downsampling, the valid
origin window, the patch size, and the background-mask data) is left
unchanged by the failed call. -/
theorem add_annotation_mask_inconsistent (s : State) (file : String) (img : MultiResImage)
    (lvl : ℕ) (ds : ℚ)
    (hres : Slide_Sampler.get_level_and_downsampling img s.desired_downsampling (1/10) =
      .ok (lvl, ds))
    (hdiff : |ds - s.downsampling| > 1/1000) :
    (Slide_Sampler.add_annotation_mask s file img).2 = some Err.inconsistentGeometry ∧
    (Slide_Sampler.add_annotation_mask s file img).1.level = s.level ∧
    (Slide_Sampler.add_annotation_mask s file img).1.downsampling = s.downsampling ∧
    (Slide_Sampler.add_annotation_mask s file img).1.width_available = s.width_available ∧
    (Slide_Sampler.add_annotation_mask s file img).1.height_available = s.height_available ∧
    (Slide_Sampler.add_annotation_mask s file img).1.size = s.size ∧
    (Slide_Sampler.add_annotation_mask s file img).1.background_mask = s.background_mask ∧
    (Slide_Sampler.add_annotation_mask s file img).1.background_mask_level =
      s.background_mask_level ∧
    (Slide_Sampler.add_annotation_mask s file img).1.size_at_background_level =
      s.size_at_background_level := by
  have hbody : Slide_Sampler.add_annotation_mask s file img =
      ({ s with
          annotation_mask_file := file, annotation_mask := img,
          annotation_mask_level := lvl, annotation_mask_downsampling := ds },
        some Err.inconsistentGeometry) := by
    simp only [Slide_Sampler.add_annotation_mask, hres, hdiff, if_true]
  rw [hbody]
  exact ⟨rfl, rfl, rfl, rfl, rfl, rfl, rfl, rfl, rfl⟩

/-- Witness for C7: attaching to the sample session (slide resolved at
downsampling 1) a mask whose only factor is 21/20, which resolves
within the 0.1 threshold but differs from 1 by 1/20 > 1/1000. -/
theorem add_annotation_mask_inconsistent_witness :
    (Slide_Sampler.get_level_and_downsampling
        ⟨[21/20], fun _ _ => [], fun _ _ => []⟩ sampleState.desired_downsampling (1/10) =
      .ok (0, 21/20) ∧ |(21/20 : ℚ) - sampleState.downsampling| > 1/1000) ∧
    ((Slide_Sampler.add_annotation_mask sampleState "ann2"
        ⟨[21/20], fun _ _ => [], fun _ _ => []⟩).2 = some Err.inconsistentGeometry ∧
    (Slide_Sampler.add_annotation_mask sampleState "ann2"
        ⟨[21/20], fun _ _ => [], fun _ _ => []⟩).1.level = sampleState.level ∧
    (Slide_Sampler.add_annotation_mask sampleState "ann2"
        ⟨[21/20], fun _ _ => [], fun _ _ => []⟩).1.downsampling = sampleState.downsampling ∧
    (Slide_Sampler.add_annotation_mask sampleState "ann2"
        ⟨[21/20], fun _ _ => [], fun _ _ => []⟩).1.width_available =
      sampleState.width_available ∧
    (Slide_Sampler.add_annotation_mask sampleState "ann2"
        ⟨[21/20], fun _ _ => [], fun _ _ => []⟩).1.height_available =
      sampleState.height_available ∧
    (Slide_Sampler.add_annotation_mask sampleState "ann2"
        ⟨[21/20], fun _ _ => [], fun _ _ => []⟩).1.size = sampleState.size ∧
    (Slide_Sampler.add_annotation_mask sampleState "ann2"
        ⟨[21/20], fun _ _ => [], fun _ _ => []⟩).1.background_mask =
      sampleState.background_mask ∧
    (Slide_Sampler.add_annotation_mask sampleState "ann2"
        ⟨[21/20], fun _ _ => [], fun _ _ => []⟩).1.background_mask_level =
      sampleState.background_mask_level ∧
    (Slide_Sampler.add_annotation_mask sampleState "ann2"
        ⟨[21/20], fun _ _ => [], fun _ _ => []⟩).1.size_at_background_level =
      sampleState.size_at_background_level) := by
  have hres : Slide_Sampler.get_level_and_downsampling
      ⟨[21/20], fun _ _ => [], fun _ _ => []⟩ sampleState.desired_downsampling (1/10) =
      .ok (0, 21/20) := by
    simp only [Slide_Sampler.get_level_and_downsampling, sampleState, level_diffs, List.map,
      pymin, List.foldl]
    norm_num [List.indexOf_cons_self, abs_of_pos]
  have hdiff : |(21/20 : ℚ) - sampleState.downsampling| > 1/1000 := by
    simp only [sampleState]
    norm_num [abs_of_pos]
  exact ⟨⟨hres, hdiff⟩,
    add_annotation_mask_inconsistent sampleState "ann2"
      ⟨[21/20], fun _ _ => [], fun _ _ => []⟩ 0 (21/20) hres hdiff⟩

/-- Flatten a two-dimensional array into the list of its entries. -/
def flat2 (x : List (List ℚ)) : List ℚ := x.flatten

/-- Numpy max over all entries of an array: raises on an empty array
(the empty case below is junk, excluded by hypothesis wherever it
matters), otherwise folds the binary maximum. -/
def npmax : List ℚ → ℚ
  | [] => 0
  | x :: xs => xs.foldl max x

theorem foldl_max_init_le (xs : List ℚ) (a : ℚ) : a ≤ xs.foldl max a := by
  induction xs generalizing a with
  | nil => simp
  | cons y ys ih => exact le_trans (le_max_left a y) (ih (max a y))

theorem foldl_max_mem_le (xs : List ℚ) (a y : ℚ) (hy : y ∈ xs) : y ≤ xs.foldl max a := by
  induction xs generalizing a with
  | nil => cases hy
  | cons z zs ih =>
    rcases List.mem_cons.mp hy with h | h
    · subst h
      exact le_trans (le_max_right a y) (foldl_max_init_le zs (max a y))
    · exact ih (max a z) h

theorem le_npmax {l : List ℚ} {v : ℚ} (hv : v ∈ l) : v ≤ npmax l := by
  match l with
  | [] => cases hv
  | x :: xs =>
    rcases List.mem_cons.mp hv with h | h
    · subst h; exact foldl_max_init_le xs v
    · exact foldl_max_mem_le xs x v h

theorem flat2_map (f : ℚ → ℚ) (x : List (List ℚ)) :
    flat2 (x.map (List.map f)) = (flat2 x).map f := by
  simp [flat2, List.map_flatten]

namespace Slide_Sampler

/-- Slide_Sampler.force_patch_float01: divide the array by 255 when
its maximum entry exceeds 1, else return it unchanged; the conversion
to float is the identity in the exact rational model. -/
def force_patch_float01 (x : List (List ℚ)) : List (List ℚ) :=
  if npmax (flat2 x) > 1 then x.map (List.map fun v => v / 255) else x

end Slide_Sampler

/-- C10: force_patch_float01 divides the array by 255 exactly when its
maximum entry exceeds 1 and otherwise returns it unchanged (float
conversion is the identity on exact rationals); on 8-bit
annotation-patch data, whose entries lie in [0, 255] and which is
nonempty, the entries of the result lie in [0, 1]. -/
theorem force_patch_float01_spec (x : List (List ℚ))
    (_hne : flat2 x ≠ [])
    (hrange : ∀ v ∈ flat2 x, 0 ≤ v ∧ v ≤ 255) :
    (npmax (flat2 x) > 1 →
      Slide_Sampler.force_patch_float01 x = x.map (List.map fun v => v / 255)) ∧
    (¬ npmax (flat2 x) > 1 → Slide_Sampler.force_patch_float01 x = x) ∧
    (∀ v ∈ flat2 (Slide_Sampler.force_patch_float01 x), 0 ≤ v ∧ v ≤ 1) := by
  refine ⟨fun h => by simp only [Slide_Sampler.force_patch_float01, if_pos h],
    fun h => by simp only [Slide_Sampler.force_patch_float01, if_neg h], ?_⟩
  by_cases h : npmax (flat2 x) > 1
  · simp only [Slide_Sampler.force_patch_float01, if_pos h]
    rw [flat2_map]
    intro v hv
    obtain ⟨u, hu, huv⟩ := List.mem_map.mp hv
    obtain ⟨hu0, hu255⟩ := hrange u hu
    constructor
    · rw [← huv]; positivity
    · rw [← huv]
      rw [div_le_one (by norm_num)]
      linarith
  · simp only [Slide_Sampler.force_patch_float01, if_neg h]
    intro v hv
    obtain ⟨hv0, _⟩ := hrange v hv
    refine ⟨hv0, ?_⟩
    exact le_trans (le_npmax hv) (not_lt.mp h)

/-- Witness for C10: a 1 x 2 patch with entries 0 and 2; the maximum
exceeds 1, so the entries are divided by 255 and land in [0, 1]. -/
theorem force_patch_float01_spec_witness :
    (flat2 [[0, 2]] ≠ [] ∧ ∀ v ∈ flat2 [[(0 : ℚ), 2]], 0 ≤ v ∧ v ≤ 255) ∧
    ((npmax (flat2 [[(0 : ℚ), 2]]) > 1 →
      Slide_Sampler.force_patch_float01 [[(0 : ℚ), 2]] =
        [[(0 : ℚ), 2]].map (List.map fun v => v / 255)) ∧
    (¬ npmax (flat2 [[(0 : ℚ), 2]]) > 1 →
      Slide_Sampler.force_patch_float01 [[(0 : ℚ), 2]] = [[(0 : ℚ), 2]]) ∧
    (∀ v ∈ flat2 (Slide_Sampler.force_patch_float01 [[(0 : ℚ), 2]]), 0 ≤ v ∧ v ≤ 1)) := by
  have h1 : flat2 [[(0 : ℚ), 2]] ≠ [] := by
    simp [flat2]
  have h2 : ∀ v ∈ flat2 [[(0 : ℚ), 2]], 0 ≤ v ∧ v ≤ 255 := by
    intro v hv
    simp only [flat2, List.flatten, List.append_nil, List.mem_cons,
      List.not_mem_nil, or_false] at hv
    rcases hv with h | h <;> rw [h] <;> norm_num
  exact ⟨⟨h1, h2⟩, force_patch_float01_spec [[0, 2]] h1 h2⟩

/-- Numpy 2-D slicing m[i : i + n, j : j + n], which like Python
slicing clips at the array bounds instead of failing. -/
def slice2d (m : List (List ℚ)) (i j n : ℕ) : List (List ℚ) :=
  ((m.drop i).take n).map fun row => (row.drop j).take n

/-- Sum of all entries of a 2-D array (np.sum). -/
def sum2d (m : List (List ℚ)) : ℚ := (m.map List.sum).sum

namespace Slide_Sampler

/-- Background coverage fraction of the draw at origin (w, h): the
background mask is sliced at the converted coordinates (row index from
h, column index from w) over the patch footprint, and the sum of the
slice is divided by the squared footprint size.  This is the
acceptance quantity of the loop in get_patch. -/
def background_coverage (s : State) (w h : ℕ) : ℚ :=
  sum2d (slice2d s.background_mask
      (level_converter_round s (h : ℚ) 0 s.background_mask_level)
      (level_converter_round s (w : ℚ) 0 s.background_mask_level)
      s.size_at_background_level) /
    ((s.size_at_background_level : ℚ) ^ 2)

/-- Slide_Sampler.get_patch: take random origins from the stream until
one whose background coverage exceeds 0.9 is found; return the patch
read from the slide at that origin together with the info record and
the unconsumed rest of the stream.  none models a run of the unbounded
loop in which no draw is ever accepted. -/
def get_patch (s : State) : List (ℕ × ℕ) → Option ((Patch × Record) × List (ℕ × ℕ))
  | [] => none
  | (w, h) :: rest =>
    if background_coverage s w h > 9/10 then
      some ((s.wsi.read_region_RGB w h,
        { w := w, h := h, parent := s.wsi_file, level := s.level, size := s.size,
          cls := none }), rest)
    else get_patch s rest

end Slide_Sampler

theorem get_patch_rest_length (s : State) (draws : List (ℕ × ℕ))
    (pr : Patch × Record) (rest : List (ℕ × ℕ))
    (h : Slide_Sampler.get_patch s draws = some (pr, rest)) :
    rest.length < draws.length := by
  induction draws with
  | nil => simp [Slide_Sampler.get_patch] at h
  | cons d tl ih =>
    obtain ⟨w, hh⟩ := d
    rw [Slide_Sampler.get_patch] at h
    by_cases hacc : Slide_Sampler.background_coverage s w hh > 9/10
    · rw [if_pos hacc] at h
      simp only [Option.some.injEq, Prod.mk.injEq] at h
      obtain ⟨-, hrest⟩ := h
      rw [← hrest]
      simp
    · rw [if_neg hacc] at h
      exact lt_trans (ih h) (by simp)

/-- C2: every patch returned by get_patch has background-mask coverage
fraction (the sum of the sliced background-mask values divided by the
squared footprint size at the background-mask level) strictly greater
than 0.9; a draw with coverage at most 0.9 is never returned. -/
theorem get_patch_coverage (s : State) (draws : List (ℕ × ℕ)) (p : Patch) (info : Record)
    (rest : List (ℕ × ℕ))
    (h : Slide_Sampler.get_patch s draws = some ((p, info), rest)) :
    Slide_Sampler.background_coverage s info.w info.h > 9/10 := by
  induction draws with
  | nil => simp [Slide_Sampler.get_patch] at h
  | cons d tl ih =>
    obtain ⟨w, hh⟩ := d
    rw [Slide_Sampler.get_patch] at h
    by_cases hacc : Slide_Sampler.background_coverage s w hh > 9/10
    · rw [if_pos hacc] at h
      simp only [Option.some.injEq, Prod.mk.injEq] at h
      obtain ⟨⟨-, hinfo⟩, -⟩ := h
      rw [← hinfo]
      exact hacc
    · rw [if_neg hacc] at h
      exact ih h

theorem sample_background_coverage :
    Slide_Sampler.background_coverage sampleState 0 0 = 1 := by
  simp only [Slide_Sampler.background_coverage, Slide_Sampler.level_converter_round,
    Slide_Sampler.level_converter, sampleState, sampleImage, slice2d, sum2d]
  norm_num

theorem sample_get_patch :
    Slide_Sampler.get_patch sampleState [(0, 0)] =
      some (([[(1, 0, 0)]], ⟨0, 0, "slide", 0, 1, none⟩), []) := by
  rw [Slide_Sampler.get_patch, if_pos (by rw [sample_background_coverage]; norm_num)]
  rfl

/-- Witness for C2: in the sample session the draw (0, 0) is accepted
(the one-pixel background mask is pure tissue, coverage 1 > 0.9). -/
theorem get_patch_coverage_witness :
    Slide_Sampler.get_patch sampleState [(0, 0)] =
      some (([[(1, 0, 0)]], ⟨0, 0, "slide", 0, 1, none⟩), []) ∧
    Slide_Sampler.background_coverage sampleState 0 0 > 9/10 :=
  ⟨sample_get_patch, get_patch_coverage sampleState [(0, 0)] [[(1, 0, 0)]]
    ⟨0, 0, "slide", 0, 1, none⟩ [] sample_get_patch⟩

namespace Slide_Sampler

/-- Class decision in the body of get_classed_patch, for normalized
annotation mean fraction f and requested patch_class.  The source runs
two successive if statements, the first accepting class 0 when
f < 0.1, the second accepting class 1 when f > 0.9, each also checking
the requested class; the two conditions are mutually exclusive, so at
most one fires.  none means the candidate is rejected and the outer
loop continues. -/
def classify (f : ℚ) (patch_class : Option ℕ) : Option ℕ :=
  if f < 1/10 ∧ (patch_class = none ∨ patch_class = some 0) then some 0
  else if f > 9/10 ∧ (patch_class = none ∨ patch_class = some 1) then some 1
  else none

/-- Slide_Sampler.get_classed_patch: repeatedly call get_patch; for
each accepted candidate read the annotation-mask region at the same
origin (w, h), normalize it with force_patch_float01, and accept iff
the mean annotation fraction over the patch area size squared is below
0.1 (class 0) or above 0.9 (class 1), subject to the optional
requested class; otherwise continue with the remaining stream. -/
def get_classed_patch (s : State) (patch_class : Option ℕ)
    (draws : List (ℕ × ℕ)) : Option ((Patch × Record) × List (ℕ × ℕ)) :=
  match _hgp : get_patch s draws with
  | none => none
  | some ((patch, info), rest) =>
    match classify (sum2d (force_patch_float01
        (s.annotation_mask.read_region_L info.w info.h)) / ((s.size ^ 2 : ℕ) : ℚ))
        patch_class with
    | some c => some ((patch, { info with cls := some c }), rest)
    | none => get_classed_patch s patch_class rest
termination_by draws.length
decreasing_by exact get_patch_rest_length _ _ _ _ (by assumption)

end Slide_Sampler

theorem classify_cases {f : ℚ} {patch_class : Option ℕ} {c : ℕ}
    (h : Slide_Sampler.classify f patch_class = some c) :
    (c = 0 ∧ f < 1/10 ∧ (patch_class = none ∨ patch_class = some 0)) ∨
    (c = 1 ∧ f > 9/10 ∧ (patch_class = none ∨ patch_class = some 1)) := by
  unfold Slide_Sampler.classify at h
  split at h
  next hcond =>
    injection h with h2
    exact Or.inl ⟨h2.symm, hcond.1, hcond.2⟩
  next =>
    split at h
    next hcond2 =>
      injection h with h2
      exact Or.inr ⟨h2.symm, hcond2.1, hcond2.2⟩
    next => cases h

set_option maxHeartbeats 1000000 in
/-- C3: a record returned by get_classed_patch carries class 0 only
when the normalized annotation mean fraction over the patch is
strictly below 0.1, and class 1 only when that fraction is strictly
above 0.9; furthermore a requested class 0 never yields class 1 and a
requested class 1 never yields class 0. -/
theorem get_classed_patch_purity (s : State) (patch_class : Option ℕ)
    (draws : List (ℕ × ℕ)) (p : Patch) (info : Record) (rest : List (ℕ × ℕ))
    (h : Slide_Sampler.get_classed_patch s patch_class draws = some ((p, info), rest)) :
    (info.cls = some 0 →
      sum2d (Slide_Sampler.force_patch_float01
          (s.annotation_mask.read_region_L info.w info.h)) / ((s.size ^ 2 : ℕ) : ℚ) < 1/10) ∧
    (info.cls = some 1 →
      sum2d (Slide_Sampler.force_patch_float01
          (s.annotation_mask.read_region_L info.w info.h)) / ((s.size ^ 2 : ℕ) : ℚ) > 9/10) ∧
    (patch_class = some 0 → info.cls ≠ some 1) ∧
    (patch_class = some 1 → info.cls ≠ some 0) := by
  rw [Slide_Sampler.get_classed_patch.eq_def] at h
  split at h
  next => cases h
  next patch info1 rest1 hgp =>
    split at h
    next c heq =>
      simp only [Option.some.injEq, Prod.mk.injEq] at h
      obtain ⟨⟨-, hinfo⟩, -⟩ := h
      rw [← hinfo]
      rcases classify_cases heq with ⟨hc, hf, hpc⟩ | ⟨hc, hf, hpc⟩
      · subst hc
        refine ⟨fun _ => hf, fun hx => ?_, fun _ => by simp, fun hpc1 => ?_⟩
        · exact absurd hx (by simp)
        · rw [hpc1] at hpc
          rcases hpc with h2 | h2 <;> cases h2
      · subst hc
        refine ⟨fun hx => ?_, fun _ => hf, fun hpc0 => ?_, fun _ => by simp⟩
        · exact absurd hx (by simp)
        · rw [hpc0] at hpc
          rcases hpc with h2 | h2 <;> cases h2
    next heq =>
      exact get_classed_patch_purity s patch_class rest1 p info rest h
termination_by draws.length
decreasing_by exact get_patch_rest_length _ _ _ _ (by assumption)

theorem sample_get_classed_patch :
    Slide_Sampler.get_classed_patch sampleState none [(0, 0)] =
      some (([[(1, 0, 0)]], ⟨0, 0, "slide", 0, 1, some 0⟩), []) := by
  rw [Slide_Sampler.get_classed_patch.eq_def, sample_get_patch]
  have hcls : Slide_Sampler.classify (sum2d (Slide_Sampler.force_patch_float01
      (sampleState.annotation_mask.read_region_L 0 0)) / ((sampleState.size ^ 2 : ℕ) : ℚ))
      none = some 0 := by
    have hf : sum2d (Slide_Sampler.force_patch_float01
        (sampleState.annotation_mask.read_region_L 0 0)) /
        ((sampleState.size ^ 2 : ℕ) : ℚ) = 0 := by
      simp only [sampleState, sampleAnnImage, Slide_Sampler.force_patch_float01, flat2, npmax,
        sum2d]
      norm_num
    rw [hf]
    rw [Slide_Sampler.classify, if_pos (by norm_num)]
  simp only [hcls]

/-- Witness for C3: in the sample session an unconstrained classed
draw at (0, 0) over an all-zero annotation region returns class 0, and
the normalized annotation mean fraction of the returned record is
below 0.1. -/
theorem get_classed_patch_purity_witness :
    Slide_Sampler.get_classed_patch sampleState none [(0, 0)] =
      some (([[(1, 0, 0)]], ⟨0, 0, "slide", 0, 1, some 0⟩), []) ∧
    sum2d (Slide_Sampler.force_patch_float01
        (sampleState.annotation_mask.read_region_L 0 0)) /
      ((sampleState.size ^ 2 : ℕ) : ℚ) < 1/10 :=
  ⟨sample_get_classed_patch,
    (get_classed_patch_purity sampleState none [(0, 0)] [[(1, 0, 0)]]
      ⟨0, 0, "slide", 0, 1, some 0⟩ [] sample_get_classed_patch).1 rfl⟩

namespace Slide_Sampler

/-- Slide_Sampler.get_basic_patchframe: build the patchframe table for
number_patches patches by repeatedly calling get_classed_patch with no
requested class and appending each info record; the table is modelled
as the ordered list of its rows, each row a Record whose fields are
exactly the frame columns w, h, class, parent, level, size.  A
failing draw fails the whole call: no partial table is returned. -/
def get_basic_patchframe (s : State) :
    ℕ → List (ℕ × ℕ) → Option (List Record × List (ℕ × ℕ))
  | 0, draws => some ([], draws)
  | n + 1, draws =>
    match get_classed_patch s none draws with
    | none => none
    | some ((_, info), rest) =>
      match get_basic_patchframe s n rest with
      | none => none
      | some (rows, rest2) => some (info :: rows, rest2)

end Slide_Sampler

/-- C9: get_basic_patchframe drives the classed sampler with no class
constraint exactly N times: on success the table has exactly N rows in
draw order (the first row is the record of the first classed draw, the
remaining rows are the table of the remaining N-1 draws on the
remaining stream), each row being a Record whose fields are exactly
the columns w, h, class, parent, level, size; a failure of any draw
propagates unchanged and no partial table is produced. -/
theorem get_basic_patchframe_spec (s : State) (n : ℕ) (draws : List (ℕ × ℕ)) :
    (∀ rows rest, Slide_Sampler.get_basic_patchframe s n draws = some (rows, rest) →
        rows.length = n) ∧
    (∀ m, n = m + 1 →
      (Slide_Sampler.get_classed_patch s none draws = none →
        Slide_Sampler.get_basic_patchframe s n draws = none) ∧
      (∀ p info rest1,
        Slide_Sampler.get_classed_patch s none draws = some ((p, info), rest1) →
          Slide_Sampler.get_basic_patchframe s n draws =
            Option.map (fun pr => (info :: pr.1, pr.2))
              (Slide_Sampler.get_basic_patchframe s m rest1))) := by
  constructor
  · induction n generalizing draws with
    | zero =>
      intro rows rest h
      simp only [Slide_Sampler.get_basic_patchframe, Option.some.injEq, Prod.mk.injEq] at h
      rw [← h.1]
      rfl
    | succ m ih =>
      intro rows rest h
      rw [Slide_Sampler.get_basic_patchframe] at h
      split at h
      next => cases h
      next p info rest1 hcp =>
        split at h
        next => cases h
        next rows2 rest2 hrec =>
          simp only [Option.some.injEq, Prod.mk.injEq] at h
          obtain ⟨hrows, -⟩ := h
          rw [← hrows]
          simp [ih rest1 rows2 rest2 hrec]
  · intro m hm
    subst hm
    constructor
    · intro hfail
      rw [Slide_Sampler.get_basic_patchframe, hfail]
    · intro p info rest1 hcp
      rw [Slide_Sampler.get_basic_patchframe, hcp]
      show (match Slide_Sampler.get_basic_patchframe s m rest1 with
        | none => none
        | some (rows, rest2) => some (info :: rows, rest2)) =
        Option.map (fun pr => (info :: pr.1, pr.2))
          (Slide_Sampler.get_basic_patchframe s m rest1)
      cases Slide_Sampler.get_basic_patchframe s m rest1 with
      | none => rfl
      | some pr => cases pr; rfl

/-- Witness for C9: in the sample session a one-row patchframe is
produced from the single draw (0, 0), and its length is 1 by the main
theorem. -/
theorem get_basic_patchframe_spec_witness :
    Slide_Sampler.get_basic_patchframe sampleState 1 [(0, 0)] =
      some ([⟨0, 0, "slide", 0, 1, some 0⟩], []) ∧
    ([⟨0, 0, "slide", 0, 1, some 0⟩] : List Record).length = 1 := by
  have hcomp : Slide_Sampler.get_basic_patchframe sampleState 1 [(0, 0)] =
      some ([⟨0, 0, "slide", 0, 1, some 0⟩], []) := by
    rw [Slide_Sampler.get_basic_patchframe, sample_get_classed_patch]
    rfl
  exact ⟨hcomp,
    (get_basic_patchframe_spec sampleState 1 [(0, 0)]).1 _ _ hcomp⟩

/-- Numpy dtype tags relevant to the mask pipeline. -/
inductive DType where
  | boolDT
  | floatDT
  deriving DecidableEq

/-- A 2-D numpy array together with its dtype tag.  Boolean arrays are
encoded with entries 0 and 1. -/
structure Arr where
  dtype : DType
  vals : List (List ℚ)

/-- Saturation of one RGB pixel after conversion to HSV:
S = (max - min) / max over the three channels, and 0 for a black
pixel (max = 0). -/
def saturationOf (p : RGB) : ℚ :=
  let mx := max p.1 (max p.2.1 p.2.2)
  let mn := min p.1 (min p.2.1 p.2.2)
  if mx = 0 then 0 else (mx - mn) / mx

/-- Saturation channel of an RGB rendering: channel 1 of the HSV
conversion, a float array. -/
def saturationChannel (img : List (List RGB)) : Arr :=
  ⟨DType.floatDT, img.map (List.map saturationOf)⟩

/-- Mean of a list of rationals (0 for the empty list). -/
def listMean (l : List ℚ) : ℚ := l.sum / l.length

/-- Between-class variance of a threshold candidate c over the value
multiset vs: the product of the class weights times the squared
difference of the class means, the quantity the Otsu criterion
maximizes. -/
def otsuVariance (vs : List ℚ) (c : ℚ) : ℚ :=
  let lo := vs.filter fun v => decide (v ≤ c)
  let hi := vs.filter fun v => decide (c < v)
  ((lo.length : ℚ) * hi.length) * (listMean lo - listMean hi) ^ 2

/-- Otsu threshold of a value multiset: a candidate maximizing the
between-class variance, picked among the distinct values.  The
library computes the same criterion over a 256-bin histogram of the
value range; no claim depends on the numeric value of the threshold,
only on the binarization that follows it. -/
def threshold_otsu (vs : List ℚ) : ℚ :=
  let cands := vs.dedup
  cands.foldl (fun best c =>
    if otsuVariance vs best < otsuVariance vs c then c else best) (cands.headD 0)

/-- Elementwise comparison array > scalar, producing a boolean
array. -/
def gtScalar (a : Arr) (t : ℚ) : Arr :=
  ⟨DType.boolDT, a.vals.map (List.map fun v => if t < v then 1 else 0)⟩

/-- Offsets of the disk-shaped structuring element of the given
radius: the integer offsets within Euclidean distance radius of the
center (which is always included). -/
def disk (radius : ℕ) : List (ℤ × ℤ) :=
  (List.range (2 * radius + 1)).flatMap fun i =>
    (List.range (2 * radius + 1)).filterMap fun j =>
      let di := (i : ℤ) - radius
      let dj := (j : ℤ) - radius
      if di ^ 2 + dj ^ 2 ≤ (radius : ℤ) ^ 2 then some (di, dj) else none

/-- Entry of a 2-D array at integer coordinates, none when out of
bounds. -/
def entry2d (m : List (List ℚ)) (i j : ℤ) : Option ℚ :=
  if i < 0 ∨ j < 0 then none
  else (m[i.toNat]?).bind fun row => row[j.toNat]?

/-- Values of the structuring-element neighborhood of the pixel (i, j)
that fall inside the array; out-of-bounds positions are ignored,
matching the neutral border padding of the library morphology. -/
def neighborhood (m : List (List ℚ)) (se : List (ℤ × ℤ)) (i j : ℕ) : List ℚ :=
  se.filterMap fun o => entry2d m ((i : ℤ) + o.1) ((j : ℤ) + o.2)

/-- Morphological dilation with a structuring element: every pixel
becomes the maximum of its neighborhood (which contains the pixel
itself for a disk); the dtype of the input is preserved, which is the
library behavior for boolean input. -/
def dilation (a : Arr) (se : List (ℤ × ℤ)) : Arr :=
  ⟨a.dtype, a.vals.mapIdx fun i row => row.mapIdx fun j v =>
    (neighborhood a.vals se i j).foldl max v⟩

/-- Morphological erosion: every pixel becomes the minimum of its
neighborhood; the dtype of the input is preserved. -/
def erosion (a : Arr) (se : List (ℤ × ℤ)) : Arr :=
  ⟨a.dtype, a.vals.mapIdx fun i row => row.mapIdx fun j v =>
    (neighborhood a.vals se i j).foldl min v⟩

/-- Morphological closing: dilation followed by erosion. -/
def closing (a : Arr) (se : List (ℤ × ℤ)) : Arr := erosion (dilation a se) se

/-- Morphological opening: erosion followed by dilation. -/
def opening (a : Arr) (se : List (ℤ × ℤ)) : Arr := dilation (erosion a se) se

/-- The Otsu plus morphology pipeline of the module-level
generate_background_mask, up to (excluding) the dtype check:
saturation channel of the HSV conversion of the low-resolution
rendering, Otsu threshold, binarization by comparison, then closing
and opening with a disk of radius 10.  The rendering (read_region of
the full extent of the chosen level, converted to RGB) is the
input. -/
def background_mask_pipeline (low_res_numpy : List (List RGB)) : Arr :=
  let saturation := saturationChannel low_res_numpy
  let theshold := threshold_otsu saturation.vals.flatten
  let high_saturation := gtScalar saturation theshold
  let disk_object := disk 10
  let mask := closing high_saturation disk_object
  opening mask disk_object

/-- Module-level generate_background_mask, with the low-resolution
rendering passed in place of the region read: run the pipeline and
raise MaskTypeError iff the resulting dtype is not boolean. -/
def generate_background_mask (low_res_numpy : List (List RGB)) : Except Err Arr :=
  let mask := background_mask_pipeline low_res_numpy
  if mask.dtype ≠ DType.boolDT then .error .maskTypeError else .ok mask

/-- Strictly boolean contents: every entry of the array is 0 or 1. -/
def isBool01 (m : List (List ℚ)) : Prop :=
  ∀ row ∈ m, ∀ v ∈ row, v = 0 ∨ v = 1

/-- Flattened pixel list of an RGB rendering, used to state that a
rendering is nonempty (has at least one pixel). -/
def flatRGB (img : List (List RGB)) : List RGB := img.flatten

theorem gtScalar_bool (a : Arr) (t : ℚ) : isBool01 (gtScalar a t).vals := by
  intro row hrow v hv
  simp only [gtScalar, List.mem_map] at hrow
  obtain ⟨row0, -, hrow0⟩ := hrow
  rw [← hrow0] at hv
  simp only [List.mem_map] at hv
  obtain ⟨u, -, hu⟩ := hv
  rw [← hu]
  by_cases hc : t < u
  · rw [if_pos hc]; exact Or.inr rfl
  · rw [if_neg hc]; exact Or.inl rfl

theorem entry2d_mem {m : List (List ℚ)} {i j : ℤ} {q : ℚ}
    (h : entry2d m i j = some q) : ∃ row ∈ m, q ∈ row := by
  unfold entry2d at h
  split at h
  next => cases h
  next =>
    rcases hrow : m[i.toNat]? with - | row
    · rw [hrow] at h; cases h
    · rw [hrow] at h
      simp only [Option.some_bind] at h
      obtain ⟨hi, hrow_eq⟩ := List.getElem?_eq_some_iff.mp hrow
      obtain ⟨hj, hq⟩ := List.getElem?_eq_some_iff.mp h
      exact ⟨row, hrow_eq ▸ List.getElem_mem hi, hq ▸ List.getElem_mem hj⟩

theorem neighborhood_mem {m : List (List ℚ)} {se : List (ℤ × ℤ)} {i j : ℕ} {u : ℚ}
    (h : u ∈ neighborhood m se i j) : ∃ row ∈ m, u ∈ row := by
  unfold neighborhood at h
  obtain ⟨o, -, ho⟩ := List.mem_filterMap.mp h
  exact entry2d_mem ho

theorem foldl_max_bool {l : List ℚ} {v : ℚ} (hv : v = 0 ∨ v = 1)
    (hl : ∀ u ∈ l, u = 0 ∨ u = 1) : l.foldl max v = 0 ∨ l.foldl max v = 1 := by
  induction l generalizing v with
  | nil => exact hv
  | cons u us ih =>
    simp only [List.foldl_cons]
    apply ih
    · rcases max_choice v u with h | h <;> rw [h]
      · exact hv
      · exact hl u (List.mem_cons_self u us)
    · intro w hw
      exact hl w (List.mem_cons_of_mem u hw)

theorem foldl_min_bool {l : List ℚ} {v : ℚ} (hv : v = 0 ∨ v = 1)
    (hl : ∀ u ∈ l, u = 0 ∨ u = 1) : l.foldl min v = 0 ∨ l.foldl min v = 1 := by
  induction l generalizing v with
  | nil => exact hv
  | cons u us ih =>
    simp only [List.foldl_cons]
    apply ih
    · rcases min_choice v u with h | h <;> rw [h]
      · exact hv
      · exact hl u (List.mem_cons_self u us)
    · intro w hw
      exact hl w (List.mem_cons_of_mem u hw)

theorem dilation_bool (a : Arr) (se : List (ℤ × ℤ)) (ha : isBool01 a.vals) :
    isBool01 (dilation a se).vals := by
  intro row hrow v hv
  simp only [dilation, List.mem_mapIdx] at hrow
  obtain ⟨i, hi, hrow_eq⟩ := hrow
  rw [← hrow_eq] at hv
  simp only [List.mem_mapIdx] at hv
  obtain ⟨j, hj, hv_eq⟩ := hv
  rw [← hv_eq]
  apply foldl_max_bool
  · exact ha _ (List.getElem_mem hi) _ (List.getElem_mem hj)
  · intro u hu
    obtain ⟨row2, hrow2, hu2⟩ := neighborhood_mem hu
    exact ha row2 hrow2 u hu2

theorem erosion_bool (a : Arr) (se : List (ℤ × ℤ)) (ha : isBool01 a.vals) :
    isBool01 (erosion a se).vals := by
  intro row hrow v hv
  simp only [erosion, List.mem_mapIdx] at hrow
  obtain ⟨i, hi, hrow_eq⟩ := hrow
  rw [← hrow_eq] at hv
  simp only [List.mem_mapIdx] at hv
  obtain ⟨j, hj, hv_eq⟩ := hv
  rw [← hv_eq]
  apply foldl_min_bool
  · exact ha _ (List.getElem_mem hi) _ (List.getElem_mem hj)
  · intro u hu
    obtain ⟨row2, hrow2, hu2⟩ := neighborhood_mem hu
    exact ha row2 hrow2 u hu2

/-- C6: the module-level background-mask pipeline produces a strictly
boolean array (dtype bool, every entry 0 or 1) for every valid
(nonempty) rendering, including degenerate all-tissue and
all-background ones; generate_background_mask therefore always
returns that array, and it raises the MaskTypeError exactly when the
dtype of the morphological result is not boolean, which never
happens. -/
theorem generate_background_mask_boolean (low_res_numpy : List (List RGB))
    (_hne : flatRGB low_res_numpy ≠ []) :
    (generate_background_mask low_res_numpy =
        .ok (background_mask_pipeline low_res_numpy) ∧
      (background_mask_pipeline low_res_numpy).dtype = DType.boolDT ∧
      isBool01 (background_mask_pipeline low_res_numpy).vals) ∧
    (generate_background_mask low_res_numpy = .error .maskTypeError ↔
      (background_mask_pipeline low_res_numpy).dtype ≠ DType.boolDT) := by
  have hdtype : (background_mask_pipeline low_res_numpy).dtype = DType.boolDT := rfl
  have hbool : isBool01 (background_mask_pipeline low_res_numpy).vals := by
    simp only [background_mask_pipeline, closing, opening]
    apply dilation_bool
    apply erosion_bool
    apply erosion_bool
    apply dilation_bool
    apply gtScalar_bool
  have hok : generate_background_mask low_res_numpy =
      .ok (background_mask_pipeline low_res_numpy) := by
    unfold generate_background_mask
    rw [if_neg]
    intro h
    exact h hdtype
  refine ⟨⟨hok, hdtype, hbool⟩, ?_⟩
  rw [hok]
  constructor
  · intro h
    exact absurd h (by simp)
  · intro h
    exact absurd hdtype h

/-- Witness for C6: a one-pixel red rendering is a valid nonempty
input, and the theorem applies to it. -/
theorem generate_background_mask_boolean_witness :
    flatRGB [[(1, 0, 0)]] ≠ [] ∧
    ((generate_background_mask [[(1, 0, 0)]] =
        .ok (background_mask_pipeline [[(1, 0, 0)]]) ∧
      (background_mask_pipeline [[(1, 0, 0)]]).dtype = DType.boolDT ∧
      isBool01 (background_mask_pipeline [[(1, 0, 0)]]).vals) ∧
    (generate_background_mask [[(1, 0, 0)]] = .error .maskTypeError ↔
      (background_mask_pipeline [[(1, 0, 0)]]).dtype ≠ DType.boolDT)) :=
  ⟨by simp [flatRGB], generate_background_mask_boolean [[(1, 0, 0)]] (by simp [flatRGB])⟩
